import Mathlib

/-!
Shallow embedding of the table-ordering application core:
the dish-customization validator and selection-update handlers
(DishCustomizationDialog / DishCustomizationDialogKids), the cart
operations of the menu pages (Menu, MenuKids, and the options-less
Menu variant), and the staff order-status interface
(OrdersManagement).  Prices are modelled as rationals; lists keep
the order of the JavaScript arrays they embed.
-/

namespace TableTara

/-- Dish record, from the Dish interface shared by the menu pages and
customization dialogs. -/
structure Dish where
  id : String
  name : String
  description : Option String
  price : ℚ
  category : String
  image_url : Option String
  is_available : Bool
deriving DecidableEq

/-- Option record of a dish option group, from the DishOption interface. -/
structure DishOption where
  id : String
  name : String
  price_modifier : ℚ
deriving DecidableEq

/-- Option group of a dish, from the DishOptionGroup interface: required
flag, single- versus multi-select flag, and its options. -/
structure DishOptionGroup where
  id : String
  name : String
  is_required : Bool
  allow_multiple : Bool
  options : List DishOption
deriving DecidableEq

/-- One chosen option for a cart line, from the SelectedOption interface. -/
structure SelectedOption where
  groupId : String
  groupName : String
  optionId : String
  optionName : String
  priceModifier : ℚ
deriving DecidableEq

/-- The SelectedOption literal built by the selection handlers of the
customization dialogs. -/
def mkSelectedOption (group : DishOptionGroup) (option : DishOption) :
    SelectedOption :=
  { groupId := group.id
    groupName := group.name
    optionId := option.id
    optionName := option.name
    priceModifier := option.price_modifier }

/-- Checkbox toggle handler handleOptionToggle of the customization dialogs
(identical in DishCustomizationDialog and DishCustomizationDialogKids):
toggling on appends, replacing first for a single-select group; toggling off
filters the list by the option id. -/
def handleOptionToggle (sels : List SelectedOption) (group : DishOptionGroup)
    (option : DishOption) (checked : Bool) : List SelectedOption :=
  if checked then
    if group.allow_multiple then
      sels ++ [mkSelectedOption group option]
    else
      sels.filter (fun opt => opt.groupId ≠ group.id) ++
        [mkSelectedOption group option]
  else
    sels.filter (fun opt => opt.optionId ≠ option.id)

/-- Radio handler handleRadioChange of DishCustomizationDialog: looks the
option up in the group, removes every selection of that group and appends
the new one; an unknown option id is a no-op. -/
def handleRadioChange (sels : List SelectedOption) (group : DishOptionGroup)
    (optionId : String) : List SelectedOption :=
  match group.options.find? (fun opt => opt.id = optionId) with
  | none => sels
  | some option =>
      sels.filter (fun opt => opt.groupId ≠ group.id) ++
        [mkSelectedOption group option]

/-- Per-group validity isGroupValid of the customization dialogs: a group
that is not required is valid; a required group is valid when some selection
references it. -/
def isGroupValid (sels : List SelectedOption) (group : DishOptionGroup) :
    Bool :=
  if !group.is_required then true
  else sels.any (fun opt => opt.groupId = group.id)

/-- Whole-line addability canAddToCart of the customization dialogs: every
group of the dish must be valid. -/
def canAddToCart (groups : List DishOptionGroup)
    (sels : List SelectedOption) : Bool :=
  groups.all (fun group => isGroupValid sels group)

/-- Unit price getTotalPrice of the customization dialogs: base price plus
the sum of the selected price modifiers, or 0 without a dish. -/
def getTotalPrice (dish : Option Dish) (sels : List SelectedOption) : ℚ :=
  match dish with
  | none => 0
  | some d => d.price + sels.foldl (fun sum opt => sum + opt.priceModifier) 0

/-- Local state of a customization dialog that the add-to-cart handler can
read: the fetched option groups, the current selections and the comment. -/
structure DialogState where
  optionGroups : List DishOptionGroup
  selectedOptions : List SelectedOption
  comment : String
deriving DecidableEq

/-- Add-to-cart handler handleAddToCart of the customization dialogs.  The
source shows a toast and returns when canAddToCart fails, and otherwise
calls the onAddToCart callback with the dish, the selections and the
comment; it never mutates the selection state and performs no backend
request.  The embedding returns the (unchanged) dialog state together with
the optional emitted cart-add event. -/
def handleAddToCart (dish : Option Dish) (st : DialogState) :
    DialogState × Option (Dish × List SelectedOption × String) :=
  match dish with
  | none => (st, none)
  | some d =>
      if canAddToCart st.optionGroups st.selectedOptions then
        (st, some (d, st.selectedOptions, st.comment))
      else
        (st, none)

/-- Specification-side per-group validity, written from the specification
three-case wording (not from the source), for comparison with isGroupValid:
a non-required group is valid; a required single-select group is valid iff
exactly one selection references it; a required multi-select group is valid
iff at least one selection references it. -/
def specGroupValid (sels : List SelectedOption) (group : DishOptionGroup) :
    Bool :=
  if group.is_required = false then true
  else if group.allow_multiple = false then
    sels.countP (fun opt => opt.groupId = group.id) = 1
  else
    1 ≤ sels.countP (fun opt => opt.groupId = group.id)

/-- Number of selections referencing the group with the given id. -/
def selCount (sels : List SelectedOption) (g : String) : Nat :=
  sels.countP (fun opt => opt.groupId = g)

/-- One user selection-update event of a customization dialog: a checkbox
toggle or a radio choice. -/
inductive SelEvent where
  | toggle (group : DishOptionGroup) (option : DishOption) (checked : Bool)
  | radio (group : DishOptionGroup) (optionId : String)
deriving DecidableEq

/-- An event respects the single-select discipline for the group id g when
it is not a toggle-on of a multi-select group carrying that id (the user
interface only issues multi-select toggles for groups whose
allow_multiple flag is set, so for a single-select group id every event
satisfies this). -/
def eventRespSingle (g : String) : SelEvent → Bool
  | .toggle group _ checked => !(group.id == g && checked && group.allow_multiple)
  | .radio _ _ => true

/-- Applies one selection-update event through the corresponding handler. -/
def applySelEvent (sels : List SelectedOption) : SelEvent → List SelectedOption
  | .toggle group option checked => handleOptionToggle sels group option checked
  | .radio group optionId => handleRadioChange sels group optionId

/-- Runs a sequence of selection-update events from the empty selection,
as the dialog does after it resets selectedOptions to the empty list. -/
def runSelEvents (events : List SelEvent) : List SelectedOption :=
  events.foldl applySelEvent []

/-- Cart line item, from the CartItem interface of the menu pages: the dish
fields plus quantity, optional comment and optional selected options (the
options-less Menu variant never sets the latter). -/
structure CartItem where
  id : String
  name : String
  description : Option String
  price : ℚ
  category : String
  image_url : Option String
  is_available : Bool
  quantity : Nat
  comment : Option String
  selectedOptions : Option (List SelectedOption)
deriving DecidableEq

/-- The line item appended by addToCart of Menu and MenuKids: the dish
fields, quantity 1, the selections, and the comment (an empty comment is
stored as undefined). -/
def mkCartItem (dish : Dish) (selectedOptions : List SelectedOption)
    (comment : String) : CartItem :=
  { id := dish.id
    name := dish.name
    description := dish.description
    price := dish.price
    category := dish.category
    image_url := dish.image_url
    is_available := dish.is_available
    quantity := 1
    comment := if comment = "" then none else some comment
    selectedOptions := some selectedOptions }

/-- Cart add operation addToCart of Menu and MenuKids (the two bodies are
identical): unconditionally appends a quantity-1 line item. -/
def addToCart (cart : List CartItem) (dish : Dish)
    (selectedOptions : List SelectedOption) (comment : String) :
    List CartItem :=
  cart ++ [mkCartItem dish selectedOptions comment]

/-- The quantity-1 line item appended by the options-less Menu variant,
which sets neither comment nor selections. -/
def mkCartItemNoOptions (dish : Dish) : CartItem :=
  { id := dish.id
    name := dish.name
    description := dish.description
    price := dish.price
    category := dish.category
    image_url := dish.image_url
    is_available := dish.is_available
    quantity := 1
    comment := none
    selectedOptions := none }

/-- Cart add operation addToCart of the options-less Menu variant: when a
line item with the same dish id exists, increments its quantity in place;
otherwise appends a quantity-1 line item. -/
def addToCartNoOptions (cart : List CartItem) (dish : Dish) :
    List CartItem :=
  if cart.any (fun item => item.id = dish.id) then
    cart.map (fun item =>
      if item.id = dish.id then { item with quantity := item.quantity + 1 }
      else item)
  else
    cart ++ [mkCartItemNoOptions dish]

/-- Cart update operation updateCartItem of Menu and MenuKids (identical
bodies): quantity 0 filters the item at the index out; a positive quantity
replaces quantity and comment of the item at the index in place.  The
comment parameter is optional in the source and stored as given. -/
def updateCartItem (cart : List CartItem) (itemIndex : Nat) (quantity : Nat)
    (comment : Option String) : List CartItem :=
  if quantity = 0 then
    ((cart.enum.filter (fun p => p.1 ≠ itemIndex)).map (fun p => p.2))
  else
    cart.mapIdx (fun idx item =>
      if idx = itemIndex then { item with quantity := quantity, comment := comment }
      else item)

/-- Cart removal operation removeFromCart of Menu and MenuKids (identical
bodies): filters the item at the index out. -/
def removeFromCart (cart : List CartItem) (itemIndex : Nat) : List CartItem :=
  (cart.enum.filter (fun p => p.1 ≠ itemIndex)).map (fun p => p.2)

/-- Item count getTotalItems of the menu pages: the sum of all quantities. -/
def getTotalItems (cart : List CartItem) : Nat :=
  cart.foldl (fun sum item => sum + item.quantity) 0

/-- Order lifecycle status, from the OrderStatus union of
OrdersManagement. -/
inductive OrderStatus where
  | received
  | preparing
  | ready
  | served
  | paid
deriving DecidableEq

/-- Position of a status along the linear lifecycle. -/
def statusIdx : OrderStatus → Nat
  | .received => 0
  | .preparing => 1
  | .ready => 2
  | .served => 3
  | .paid => 4

/-- The single status-change action the OrdersManagement card offers for an
order, read off the four conditionally rendered buttons: received offers
preparing, preparing offers ready, ready offers served, served offers paid,
and paid offers nothing. -/
def offeredAction : OrderStatus → Option OrderStatus
  | .received => some .preparing
  | .preparing => some .ready
  | .ready => some .served
  | .served => some .paid
  | .paid => none

/-- Modelled from the spec: the order-submission component (CartSheet) is
not among the provided sources; per the specification an order is created
with initial status received. -/
def initialStatus : OrderStatus := .received

/-- Modelled from the spec: the line-item subtotal is computed in the
order-submission component (CartSheet), which is not among the provided
sources; per the specification it is the unit price (base price plus
selected modifiers, as computed by getTotalPrice) times the quantity. -/
def lineSubtotal (dish : Dish) (sels : List SelectedOption)
    (quantity : Nat) : ℚ :=
  getTotalPrice (some dish) sels * quantity

/-- Sample dish for concrete evaluations: the Burger of the specification
scenario, price 8.00. -/
def wBurger : Dish :=
  { id := "d1"
    name := "Burger"
    description := none
    price := 8
    category := "plat"
    image_url := none
    is_available := true }

/-- Sample option: Brioche, modifier 0. -/
def wBrioche : DishOption := { id := "o1", name := "Brioche", price_modifier := 0 }

/-- Sample option: Multigrain, with a positive price modifier. -/
def wMultigrain : DishOption :=
  { id := "o2", name := "Multigrain", price_modifier := 1 }

/-- Sample required single-select group Bread with the two bread options. -/
def wBread : DishOptionGroup :=
  { id := "g1"
    name := "Bread"
    is_required := true
    allow_multiple := false
    options := [wBrioche, wMultigrain] }

/-- Sample option: Ketchup, modifier 0. -/
def wKetchup : DishOption := { id := "o3", name := "Ketchup", price_modifier := 0 }

/-- Sample required multi-select group Sauce. -/
def wSauce : DishOptionGroup :=
  { id := "g2"
    name := "Sauce"
    is_required := true
    allow_multiple := true
    options := [wKetchup] }

/-- Sample selection referencing the Bread group. -/
def wSelBrioche : SelectedOption := mkSelectedOption wBread wBrioche

/-- Second sample selection referencing the Bread group. -/
def wSelMultigrain : SelectedOption := mkSelectedOption wBread wMultigrain

/-- Sample cart line item holding the sample dish with quantity 1 and a
stored comment. -/
def wItemA : CartItem :=
  { id := "d1"
    name := "Burger"
    description := none
    price := 8
    category := "plat"
    image_url := none
    is_available := true
    quantity := 1
    comment := some "no onions"
    selectedOptions := none }

/-- Second sample cart line item, a different dish. -/
def wItemB : CartItem :=
  { id := "d2"
    name := "Salade"
    description := none
    price := 5
    category := "plat"
    image_url := none
    is_available := true
    quantity := 2
    comment := none
    selectedOptions := none }

/-- C2 counterexample: the Bread group is required and single-select, two
selections reference it, the source validator accepts, yet the three-case
specification definition (exactly one for required single-select) rejects. -/
theorem groupValid_counterexample :
    isGroupValid [wSelBrioche, wSelMultigrain] wBread = true ∧
    wBread.is_required = true ∧ wBread.allow_multiple = false ∧
    selCount [wSelBrioche, wSelMultigrain] wBread.id = 2 ∧
    specGroupValid [wSelBrioche, wSelMultigrain] wBread = false := by
  decide

/-- C2 (amended): per-group validity of the source validator is two-case,
not three-case: a group that is not required is valid, and a required group
(single- or multi-select alike) is valid iff at least one selection
references it. -/
theorem isGroupValid_iff (sels : List SelectedOption)
    (group : DishOptionGroup) :
    isGroupValid sels group = true ↔
      (group.is_required = false ∨ ∃ opt ∈ sels, opt.groupId = group.id) := by
  cases h : group.is_required <;>
    simp [isGroupValid, h, List.any_eq_true]

/-- C5: the unit price computed by getTotalPrice is the dish base price plus
the sum of the selected price modifiers, and the line subtotal is that unit
price times the quantity, for every dish, selection set and quantity. -/
theorem getTotalPrice_spec (dish : Dish) (sels : List SelectedOption)
    (quantity : Nat) :
    getTotalPrice (some dish) sels =
      dish.price + (sels.map SelectedOption.priceModifier).sum ∧
    lineSubtotal dish sels quantity =
      (dish.price + (sels.map SelectedOption.priceModifier).sum) * quantity := by
  have hfold : sels.foldl (fun sum opt => sum + opt.priceModifier) 0 =
      (sels.map SelectedOption.priceModifier).sum := by
    rw [List.sum_eq_foldl, List.foldl_map]
  refine ⟨?_, ?_⟩
  · simp [getTotalPrice, hfold]
  · simp [lineSubtotal, getTotalPrice, hfold]

/-- C1: the line item is addable iff every option group of the dish is
valid, and when some group is invalid the add-to-cart handler emits no
cart-add event and leaves the dialog state unchanged (the source handler
only shows a toast and returns, reaching no backend call). -/
theorem handleAddToCart_blocked (dish : Dish) (st : DialogState) :
    (canAddToCart st.optionGroups st.selectedOptions = true ↔
      ∀ group ∈ st.optionGroups, isGroupValid st.selectedOptions group = true) ∧
    (canAddToCart st.optionGroups st.selectedOptions = false →
      handleAddToCart (some dish) st = (st, none)) := by
  refine ⟨?_, ?_⟩
  · simp [canAddToCart, List.all_eq_true]
  · intro h
    simp [handleAddToCart, h]

/-- C1 witness: with the required Bread group and no selection, addability
fails and the handler emits nothing and keeps the state. -/
theorem handleAddToCart_blocked_witness :
    canAddToCart [wBread] [] = false ∧
    handleAddToCart (some wBurger) ⟨[wBread], [], ""⟩ =
      (⟨[wBread], [], ""⟩, none) :=
  ⟨by decide, (handleAddToCart_blocked wBurger ⟨[wBread], [], ""⟩).2 (by decide)⟩

/-- C6: in a multi-select group, toggling an option on appends exactly one
SelectedOption for it at the end; toggling an option off keeps exactly the
selections whose option id differs; and in both directions the selections
referencing other groups are unchanged (for the off direction this uses the
catalog integrity fact that an option id determines its group). -/
theorem handleOptionToggle_spec (sels : List SelectedOption)
    (group : DishOptionGroup) (option : DishOption)
    (hm : group.allow_multiple = true)
    (hi : ∀ s ∈ sels, s.optionId = option.id → s.groupId = group.id) :
    handleOptionToggle sels group option true =
      sels ++ [mkSelectedOption group option] ∧
    (∀ s, s ∈ handleOptionToggle sels group option false ↔
      s ∈ sels ∧ s.optionId ≠ option.id) ∧
    (handleOptionToggle sels group option true).filter
        (fun s => s.groupId ≠ group.id) =
      sels.filter (fun s => s.groupId ≠ group.id) ∧
    (handleOptionToggle sels group option false).filter
        (fun s => s.groupId ≠ group.id) =
      sels.filter (fun s => s.groupId ≠ group.id) := by
  have hon : handleOptionToggle sels group option true =
      sels ++ [mkSelectedOption group option] := by
    simp [handleOptionToggle, hm]
  have hoff : handleOptionToggle sels group option false =
      sels.filter (fun s => s.optionId ≠ option.id) := rfl
  refine ⟨hon, ?_, ?_, ?_⟩
  · intro s
    rw [hoff]
    simp [List.mem_filter]
  · rw [hon, List.filter_append]
    simp [mkSelectedOption]
  · rw [hoff, List.filter_filter]
    apply List.filter_congr
    intro a ha
    by_cases hg : a.groupId = group.id
    · simp [hg]
    · have hne : a.optionId ≠ option.id := fun he => hg (hi a ha he)
      simp [hg, hne]

/-- C6 witness: toggling Ketchup on in the multi-select Sauce group with a
Bread selection present appends exactly the new Sauce selection. -/
theorem handleOptionToggle_spec_witness :
    handleOptionToggle [wSelBrioche] wSauce wKetchup true =
      [wSelBrioche] ++ [mkSelectedOption wSauce wKetchup] :=
  (handleOptionToggle_spec [wSelBrioche] wSauce wKetchup (by decide)
    (by decide)).1

/-- C4: an order starts in status received (modelled from the spec, the
submission component being outside the provided sources), and every action
the staff interface offers advances the status exactly one step along the
linear lifecycle; the terminal status paid offers no action, so no
reachable action is backward, skipping, or out of paid. -/
theorem orderLifecycle_spec :
    initialStatus = OrderStatus.received ∧
    offeredAction OrderStatus.paid = none ∧
    ∀ s : OrderStatus,
      (match offeredAction s with
       | some t => statusIdx t = statusIdx s + 1
       | none => s = OrderStatus.paid) := by
  refine ⟨rfl, rfl, ?_⟩
  intro s
  cases s <;> rfl

/-- Count of selections for a group id distributes over list append. -/
theorem selCount_append (l1 l2 : List SelectedOption) (g : String) :
    selCount (l1 ++ l2) g = selCount l1 g + selCount l2 g :=
  List.countP_append _ _ _

/-- Filtering a selection list never increases the count for a group id. -/
theorem selCount_filter_le (l : List SelectedOption)
    (p : SelectedOption → Bool) (g : String) :
    selCount (l.filter p) g ≤ selCount l g := by
  unfold selCount
  rw [List.countP_filter]
  exact List.countP_mono_left (fun a _ h => (Bool.and_eq_true _ _ |>.mp h).1)

/-- Replacement (remove the group, then append one new selection of it)
leaves exactly one selection for that group. -/
theorem selCount_replace_self (sels : List SelectedOption)
    (group : DishOptionGroup) (option : DishOption) :
    selCount (sels.filter (fun opt => opt.groupId ≠ group.id) ++
      [mkSelectedOption group option]) group.id = 1 := by
  rw [selCount_append]
  have h0 : selCount (sels.filter (fun opt => opt.groupId ≠ group.id))
      group.id = 0 := by
    unfold selCount
    rw [List.countP_eq_zero]
    intro a ha
    have h := (List.mem_filter.mp ha).2
    simp only [ne_eq, decide_not, Bool.not_eq_eq_eq_not, Bool.not_true,
      decide_eq_false_iff_not] at h
    simp [h]
  have h1 : selCount [mkSelectedOption group option] group.id = 1 := by
    simp [selCount, mkSelectedOption]
  omega

/-- Replacement inside one group does not increase the count of any other
group. -/
theorem selCount_replace_other (sels : List SelectedOption)
    (group : DishOptionGroup) (option : DishOption) (g : String)
    (hne : group.id ≠ g) :
    selCount (sels.filter (fun opt => opt.groupId ≠ group.id) ++
      [mkSelectedOption group option]) g ≤ selCount sels g := by
  rw [selCount_append]
  have h1 : selCount [mkSelectedOption group option] g = 0 := by
    simp [selCount, mkSelectedOption, hne]
  have h2 := selCount_filter_le sels (fun opt => decide (opt.groupId ≠ group.id)) g
  omega

/-- One selection-update event that respects the single-select discipline
for a group id keeps its selection count at most one. -/
theorem applySelEvent_count_le (g : String) (sels : List SelectedOption)
    (e : SelEvent) (hresp : eventRespSingle g e = true)
    (hle : selCount sels g ≤ 1) :
    selCount (applySelEvent sels e) g ≤ 1 := by
  cases e with
  | toggle group option checked =>
    cases checked with
    | false =>
      have heq : applySelEvent sels (.toggle group option false) =
          sels.filter (fun opt => opt.optionId ≠ option.id) := by
        simp [applySelEvent, handleOptionToggle]
      rw [heq]
      exact le_trans (selCount_filter_le _ _ _) hle
    | true =>
      cases hm : group.allow_multiple with
      | true =>
        have hne : ¬(group.id = g) := by
          simp [eventRespSingle, hm] at hresp
          exact hresp
        have heq : applySelEvent sels (.toggle group option true) =
            sels ++ [mkSelectedOption group option] := by
          simp [applySelEvent, handleOptionToggle, hm]
        rw [heq, selCount_append]
        have h1 : selCount [mkSelectedOption group option] g = 0 := by
          simp [selCount, mkSelectedOption, hne]
        omega
      | false =>
        have heq : applySelEvent sels (.toggle group option true) =
            sels.filter (fun opt => opt.groupId ≠ group.id) ++
              [mkSelectedOption group option] := by
          simp [applySelEvent, handleOptionToggle, hm]
        rw [heq]
        by_cases hg : group.id = g
        · rw [← hg]
          exact le_of_eq (selCount_replace_self sels group option)
        · exact le_trans (selCount_replace_other sels group option g hg) hle
  | radio group optionId =>
    cases hf : group.options.find? (fun opt => opt.id = optionId) with
    | none =>
      have heq : applySelEvent sels (.radio group optionId) = sels := by
        simp [applySelEvent, handleRadioChange, hf]
      rw [heq]; exact hle
    | some option =>
      have heq : applySelEvent sels (.radio group optionId) =
          sels.filter (fun opt => opt.groupId ≠ group.id) ++
            [mkSelectedOption group option] := by
        simp [applySelEvent, handleRadioChange, hf]
      rw [heq]
      by_cases hg : group.id = g
      · rw [← hg]
        exact le_of_eq (selCount_replace_self sels group option)
      · exact le_trans (selCount_replace_other sels group option g hg) hle

/-- Folding respecting events preserves the at-most-one bound. -/
theorem foldSelEvents_count_le (g : String) :
    ∀ (events : List SelEvent) (sels : List SelectedOption),
      (∀ e ∈ events, eventRespSingle g e = true) →
      selCount sels g ≤ 1 →
      selCount (events.foldl applySelEvent sels) g ≤ 1 := by
  intro events
  induction events with
  | nil => intro sels _ hle; simpa using hle
  | cons e es ih =>
    intro sels hresp hle
    simp only [List.foldl_cons]
    exact ih _ (fun x hx => hresp x (List.mem_cons_of_mem e hx))
      (applySelEvent_count_le g sels e (hresp e (List.mem_cons_self e es)) hle)

/-- C3: after any sequence of selection updates from the empty selection in
which the single-select discipline holds for a group id, at most one
selection references that group; a single-select checkbox choice or a radio
choice of an existing option always leaves exactly one selection for its
group. -/
theorem singleSelect_replacement (g : String) (events : List SelEvent)
    (sels : List SelectedOption) (group : DishOptionGroup)
    (option : DishOption) (optionId : String) :
    ((∀ e ∈ events, eventRespSingle g e = true) →
      selCount (runSelEvents events) g ≤ 1) ∧
    (group.allow_multiple = false →
      selCount (handleOptionToggle sels group option true) group.id = 1) ∧
    (group.options.any (fun opt => opt.id = optionId) = true →
      selCount (handleRadioChange sels group optionId) group.id = 1) := by
  refine ⟨?_, ?_, ?_⟩
  · intro h
    exact foldSelEvents_count_le g events [] h (by simp [selCount])
  · intro hm
    have heq : handleOptionToggle sels group option true =
        sels.filter (fun opt => opt.groupId ≠ group.id) ++
          [mkSelectedOption group option] := by
      simp [handleOptionToggle, hm]
    rw [heq]
    exact selCount_replace_self sels group option
  · intro hany
    cases hf : group.options.find? (fun opt => opt.id = optionId) with
    | none =>
      exfalso
      obtain ⟨opt, hmem, hopt⟩ := List.any_eq_true.mp hany
      exact absurd hopt (by simpa using List.find?_eq_none.mp hf opt hmem)
    | some found =>
      have heq : handleRadioChange sels group optionId =
          sels.filter (fun opt => opt.groupId ≠ group.id) ++
            [mkSelectedOption group found] := by
        simp [handleRadioChange, hf]
      rw [heq]
      exact selCount_replace_self sels group found

/-- C3 witness: two successive radio choices in the required single-select
Bread group leave at most one (indeed exactly one) selection for it, and
concrete single-select choices leave exactly one. -/
theorem singleSelect_replacement_witness :
    selCount (runSelEvents
      [SelEvent.radio wBread "o1", SelEvent.radio wBread "o2"]) "g1" ≤ 1 ∧
    selCount (handleOptionToggle [] wBread wBrioche true) wBread.id = 1 ∧
    selCount (handleRadioChange [wSelBrioche] wBread "o2") wBread.id = 1 :=
  ⟨(singleSelect_replacement "g1"
      [SelEvent.radio wBread "o1", SelEvent.radio wBread "o2"]
      [] wBread wBrioche "o2").1 (by decide),
   (singleSelect_replacement "g1" [] [] wBread wBrioche "o2").2.1 (by decide),
   (singleSelect_replacement "g1" [] [wSelBrioche] wBread wBrioche "o2").2.2
     (by decide)⟩

/-- Index filtering over an enumeration that starts above the removed index
keeps every element. -/
theorem enumFrom_filter_ne_map_of_lt {α : Type} (l : List α) :
    ∀ (n i : Nat), i < n →
      ((l.enumFrom n).filter (fun p => p.1 ≠ i)).map (fun p => p.2) = l := by
  induction l with
  | nil => intro n i _; rfl
  | cons x xs ih =>
    intro n i h
    have hne : n ≠ i := Nat.ne_of_gt h
    rw [List.enumFrom_cons, List.filter_cons_of_pos (by simpa using hne),
      List.map_cons, ih (n + 1) i (Nat.lt_succ_of_lt h)]

/-- The index-based filter of the source cart operations is eraseIdx,
stated for an enumeration starting at any offset. -/
theorem enumFrom_filter_ne_map_erase {α : Type} (l : List α) :
    ∀ (n k : Nat),
      ((l.enumFrom n).filter (fun p => p.1 ≠ (n + k))).map (fun p => p.2) =
        l.eraseIdx k := by
  induction l with
  | nil => intro n k; rfl
  | cons x xs ih =>
    intro n k
    cases k with
    | zero =>
      rw [Nat.add_zero, List.enumFrom_cons,
        List.filter_cons_of_neg (by simp),
        enumFrom_filter_ne_map_of_lt xs (n + 1) n (Nat.lt_succ_self n)]
      rfl
    | succ m =>
      have hne : n ≠ n + (m + 1) := by omega
      rw [List.enumFrom_cons, List.filter_cons_of_pos (by simp [hne]),
        List.map_cons]
      have harith : n + (m + 1) = (n + 1) + m := by omega
      rw [harith, ih (n + 1) m]
      rfl

/-- The cart removal operation is eraseIdx. -/
theorem removeFromCart_eq_eraseIdx (cart : List CartItem) (i : Nat) :
    removeFromCart cart i = cart.eraseIdx i := by
  have h := enumFrom_filter_ne_map_erase cart 0 i
  simpa [removeFromCart, List.enum] using h

/-- A positional map whose function is the identity below the length is the
identity. -/
theorem mapIdx_congr_id {α : Type} (l : List α) :
    ∀ (f : Nat → α → α), (∀ idx, idx < l.length → ∀ a, f idx a = a) →
      l.mapIdx f = l := by
  induction l with
  | nil => intro f _; rfl
  | cons x xs ih =>
    intro f h
    rw [List.mapIdx_cons, h 0 (by simp) x,
      ih (fun i => f (i + 1))
        (fun idx hidx a => h (idx + 1) (by simpa using hidx) a)]

/-- Positive-quantity cart update is a positional map replacing quantity
and comment at the index. -/
theorem updateCartItem_pos_eq (cart : List CartItem) (i q : Nat)
    (c : Option String) (hq : q ≠ 0) :
    updateCartItem cart i q c =
      cart.mapIdx (fun idx item =>
        if idx = i then { item with quantity := q, comment := c }
        else item) := by
  simp [updateCartItem, hq]

/-- C8 counterexample: on a two-item cart, removing index 0 twice removes
both items, while removing it once leaves one item, so index-based removal
is not idempotent. -/
theorem removeTwice_counterexample :
    removeFromCart (removeFromCart [wItemA, wItemB] 0) 0 ≠
      removeFromCart [wItemA, wItemB] 0 := by
  decide

/-- C8 (amended): quantity-0 update equals removal; with an index that
references no line item both operations are no-ops; and removing the same
index twice equals removing it once exactly when the first removal leaves
the index out of range (the removed item was last or the index was already
out of range): the if-direction and the only-if direction are both proved,
the latter because an index still in range after the first removal removes
the item that shifted into the position, shrinking the cart again — so in
general index-based removal is not idempotent. -/
theorem updateCartItem_remove_spec (cart : List CartItem) (i q : Nat)
    (c : Option String) :
    updateCartItem cart i 0 c = removeFromCart cart i ∧
    (cart.length ≤ i →
      updateCartItem cart i q c = cart ∧ removeFromCart cart i = cart) ∧
    (cart.length ≤ i + 1 →
      removeFromCart (removeFromCart cart i) i = removeFromCart cart i) ∧
    (i + 1 < cart.length →
      removeFromCart (removeFromCart cart i) i ≠ removeFromCart cart i) := by
  refine ⟨rfl, ?_, ?_, ?_⟩
  · intro hlen
    refine ⟨?_, ?_⟩
    · by_cases hq : q = 0
      · subst hq
        show removeFromCart cart i = cart
        rw [removeFromCart_eq_eraseIdx]
        exact List.eraseIdx_of_length_le hlen
      · rw [updateCartItem_pos_eq cart i q c hq]
        apply mapIdx_congr_id
        intro idx hidx a
        have hne : idx ≠ i := by omega
        simp [hne]
    · rw [removeFromCart_eq_eraseIdx]
      exact List.eraseIdx_of_length_le hlen
  · intro hlen
    simp only [removeFromCart_eq_eraseIdx]
    apply List.eraseIdx_of_length_le
    rw [List.length_eraseIdx]
    split <;> omega
  · intro hlt
    simp only [removeFromCart_eq_eraseIdx]
    intro heq
    have h1 : (cart.eraseIdx i).length = cart.length - 1 := by
      rw [List.length_eraseIdx]
      split <;> omega
    have h2 : ((cart.eraseIdx i).eraseIdx i).length =
        (cart.eraseIdx i).length - 1 := by
      rw [List.length_eraseIdx]
      split <;> omega
    have h3 := congrArg List.length heq
    omega

/-- C8 witness: an out-of-range index leaves the cart unchanged under both
operations, removing the last index twice equals removing it once, and
removing an index with a successor in range twice differs from removing it
once. -/
theorem updateCartItem_remove_spec_witness :
    updateCartItem [wItemA] 3 5 none = [wItemA] ∧
    removeFromCart [wItemA] 3 = [wItemA] ∧
    removeFromCart (removeFromCart [wItemA, wItemB] 1) 1 =
      removeFromCart [wItemA, wItemB] 1 ∧
    removeFromCart (removeFromCart [wItemA, wItemB] 0) 0 ≠
      removeFromCart [wItemA, wItemB] 0 :=
  ⟨((updateCartItem_remove_spec [wItemA] 3 5 none).2.1 (by decide)).1,
   ((updateCartItem_remove_spec [wItemA] 3 5 none).2.1 (by decide)).2,
   (updateCartItem_remove_spec [wItemA, wItemB] 1 0 none).2.2.1 (by decide),
   (updateCartItem_remove_spec [wItemA, wItemB] 0 0 none).2.2.2 (by decide)⟩

/-- C9: a positive-quantity update touches only the line item at the index,
and there it changes only quantity and comment: the selections, the dish
reference (id, name) and the add-time price are preserved, as are all other
line items and the length of the cart. -/
theorem updateCartItem_frame (cart : List CartItem) (i q : Nat)
    (c : Option String) (hq : q ≠ 0) :
    (updateCartItem cart i q c).length = cart.length ∧
    (∀ j, j ≠ i → (updateCartItem cart i q c)[j]? = cart[j]?) ∧
    (∀ item, cart[i]? = some item →
      ∃ item2, (updateCartItem cart i q c)[i]? = some item2 ∧
        item2.quantity = q ∧ item2.comment = c ∧
        item2.selectedOptions = item.selectedOptions ∧
        item2.id = item.id ∧ item2.name = item.name ∧
        item2.price = item.price ∧ item2.description = item.description ∧
        item2.category = item.category ∧
        item2.image_url = item.image_url ∧
        item2.is_available = item.is_available) := by
  rw [updateCartItem_pos_eq cart i q c hq]
  refine ⟨List.length_mapIdx, ?_, ?_⟩
  · intro j hj
    rw [List.getElem?_mapIdx]
    cases cart[j]? with
    | none => rfl
    | some a => simp [hj]
  · intro item hitem
    rw [List.getElem?_mapIdx, hitem]
    exact ⟨{ item with quantity := q, comment := c }, by simp,
      rfl, rfl, rfl, rfl, rfl, rfl, rfl, rfl, rfl, rfl⟩

/-- C9 witness: updating index 0 of a two-item cart to quantity 3 keeps the
length and the other item. -/
theorem updateCartItem_frame_witness :
    (updateCartItem [wItemA, wItemB] 0 3 none).length =
      ([wItemA, wItemB] : List CartItem).length ∧
    (updateCartItem [wItemA, wItemB] 0 3 none)[1]? =
      ([wItemA, wItemB] : List CartItem)[1]? :=
  ⟨(updateCartItem_frame [wItemA, wItemB] 0 3 none (by decide)).1,
   (updateCartItem_frame [wItemA, wItemB] 0 3 none (by decide)).2.1 1
     (by decide)⟩

/-- C10: a positive-quantity update stores exactly the comment argument on
the line item at the index; when the argument is omitted (undefined, here
none) any previously stored comment is erased rather than preserved. -/
theorem updateCartItem_comment_spec (cart : List CartItem) (i q : Nat)
    (c : Option String) (item : CartItem) (hq : q ≠ 0)
    (hitem : cart[i]? = some item) :
    ∃ item2, (updateCartItem cart i q c)[i]? = some item2 ∧
      item2.comment = c := by
  rw [updateCartItem_pos_eq cart i q c hq, List.getElem?_mapIdx, hitem]
  exact ⟨{ item with quantity := q, comment := c }, by simp, rfl⟩

/-- C10 witness: the first item carries the stored comment, and updating it
with quantity 2 and no comment argument erases the comment. -/
theorem updateCartItem_comment_witness :
    wItemA.comment = some "no onions" ∧
    ∃ item2, (updateCartItem [wItemA] 0 2 none)[0]? = some item2 ∧
      item2.comment = none :=
  ⟨rfl, updateCartItem_comment_spec [wItemA] 0 2 none wItemA (by decide) rfl⟩

/-- Item count as a sum of mapped quantities. -/
theorem getTotalItems_eq_sum (cart : List CartItem) :
    getTotalItems cart = (cart.map (fun item => item.quantity)).sum := by
  rw [List.sum_eq_foldl, List.foldl_map]
  rfl

/-- Incrementing the quantity of every item matching a dish id raises the
quantity sum by the number of matching items. -/
theorem quantities_increment (cart : List CartItem) (did : String) :
    ((cart.map (fun item =>
        if item.id = did then { item with quantity := item.quantity + 1 }
        else item)).map (fun item => item.quantity)).sum =
      (cart.map (fun item => item.quantity)).sum +
        cart.countP (fun item => item.id = did) := by
  induction cart with
  | nil => rfl
  | cons x xs ih =>
    simp only [List.map_cons, List.sum_cons, List.countP_cons, ih]
    by_cases hx : x.id = did
    · simp [hx]
      omega
    · simp [hx]
      omega

/-- C7 counterexample: adding the Burger to a cart that already holds a
Burger line item does not append in the options-less Menu variant (the cart
length stays 1), and the customization-menu addToCart appends even when the
validator would reject the selection set, so it never fails with a
validation error. -/
theorem addToCart_counterexample :
    (addToCartNoOptions [wItemA] wBurger).length ≠
      ([wItemA] : List CartItem).length + 1 ∧
    canAddToCart [wBread] [] = false ∧
    (addToCart [] wBurger [] "").length = 1 := by
  refine ⟨?_, by decide, rfl⟩
  decide

/-- C7 (amended): the customization-menu addToCart (Menu and MenuKids)
always appends a quantity-1 line item at the end, even for a dish already
in the cart, and performs no validation itself (the dialog blocks invalid
selections before it is called, so it never fails); the options-less Menu
variant appends only when no line item has the same dish id, and otherwise
increments the quantity of every matching line item, raising the total item
count by the number of matching items. -/
theorem addToCart_append_spec (cart : List CartItem) (dish : Dish)
    (sels : List SelectedOption) (comment : String) :
    addToCart cart dish sels comment =
      cart ++ [mkCartItem dish sels comment] ∧
    (mkCartItem dish sels comment).quantity = 1 ∧
    (addToCart cart dish sels comment).length = cart.length + 1 ∧
    (cart.all (fun item => item.id ≠ dish.id) = true →
      addToCartNoOptions cart dish = cart ++ [mkCartItemNoOptions dish]) ∧
    (cart.any (fun item => item.id = dish.id) = true →
      (addToCartNoOptions cart dish).length = cart.length ∧
      getTotalItems (addToCartNoOptions cart dish) =
        getTotalItems cart +
          cart.countP (fun item => item.id = dish.id)) := by
  refine ⟨rfl, rfl, by simp [addToCart], ?_, ?_⟩
  · intro hall
    have hany : cart.any (fun item => item.id = dish.id) = false := by
      rw [List.any_eq_false]
      intro a ha
      have h := List.all_eq_true.mp hall a ha
      simpa using h
    simp [addToCartNoOptions, hany]
  · intro hany
    have heq : addToCartNoOptions cart dish =
        cart.map (fun item =>
          if item.id = dish.id then { item with quantity := item.quantity + 1 }
          else item) := by
      simp [addToCartNoOptions, hany]
    rw [heq]
    refine ⟨by simp, ?_⟩
    rw [getTotalItems_eq_sum, getTotalItems_eq_sum]
    exact quantities_increment cart dish.id

/-- C7 witness: a cart with a different dish appends, and a cart already
holding the Burger merges, keeping the length and raising the item count. -/
theorem addToCart_append_spec_witness :
    addToCartNoOptions [wItemB] wBurger =
      [wItemB] ++ [mkCartItemNoOptions wBurger] ∧
    (addToCartNoOptions [wItemA] wBurger).length =
      ([wItemA] : List CartItem).length ∧
    getTotalItems (addToCartNoOptions [wItemA] wBurger) =
      getTotalItems [wItemA] +
        List.countP (fun item => decide (item.id = wBurger.id)) [wItemA] :=
  ⟨(addToCart_append_spec [wItemB] wBurger [] "").2.2.2.1 (by decide),
   ((addToCart_append_spec [wItemA] wBurger [] "").2.2.2.2 (by decide)).1,
   ((addToCart_append_spec [wItemA] wBurger [] "").2.2.2.2 (by decide)).2⟩

end TableTara
